import Mathlib

/-!
Verification development for the telepublisher backend scheduler core.

Shallow embedding of:
  * the recurrence calculator (utils/dateUtils: calculateNextScheduledDate,
    findNextWeekdayDate, addTimeToDate),
  * the content duplication service (ContentDuplicationService),
  * the autoposting executors (cron AutoPostingService.processDueRules and the
    manual executeAutoPostingRule controller),
  * the scheduled post / poll dispatcher steps (SchedulerService) and the
    in-flight sets (processingPosts in the scheduler, publishingPosts in the
    scheduled-post controller).

Time model: timestamps are numbers of seconds since a local epoch whose day 0
is a Thursday (matching the JavaScript epoch weekday), on a fixed-offset local
clock with uniform 86400-second days (the source performs no timezone
conversion beyond the host local time; daylight-saving shifts are outside the
model). JavaScript Date setter normalization (setHours, setDate, setMinutes
with overflowing values) corresponds to plain arithmetic on absolute seconds.
-/

set_option maxRecDepth 8000

namespace Telepublisher

/-! ### Recurrence calculator (dateUtils) -/

/-- Frequency enum of the rule model. The constructor `other` stands for a
runtime value outside the enum, which the source switch sends to its default
branch. -/
inductive Frequency
  | daily
  | weekly
  | custom
  | other
deriving Repr, DecidableEq

/-- TimeUnit enum. `otherUnit` stands for a runtime value outside the enum,
handled by the default branch of addTimeToDate (same as days). -/
inductive TimeUnit
  | minutes
  | hours
  | days
  | otherUnit
deriving Repr, DecidableEq

def secondsPerDay : Nat := 86400

/-- Splitting a character list at a separator, modelling String.prototype.split
with a one-character separator (the empty input yields one empty field, and a
trailing separator yields a trailing empty field, as in JavaScript). -/
def splitOnChar (sep : Char) (l : List Char) : List (List Char) :=
  l.foldr (fun c acc => if c = sep then [] :: acc else (c :: acc.headD []) :: acc.tail) [[]]

/-- Decimal value of a digit list. -/
def digitsToNat (l : List Char) : Nat :=
  l.foldl (fun a c => a * 10 + (c.toNat - 48)) 0

/-- JavaScript Number(s) restricted to the inputs that occur here: the empty
string converts to 0, a string of decimal digits converts to its value, and
anything else is NaN (modelled as none). -/
def jsNumber (l : List Char) : Option Nat :=
  if l.isEmpty then some 0
  else if l.all Char.isDigit then some (digitsToNat l) else none

/-- ASCII lowercasing, modelling String.prototype.toLowerCase on the inputs
used here (non-ASCII letters are irrelevant downstream: weekday lookup keys
and the keyword regex are ASCII-only). -/
def jsToLower (s : String) : String :=
  String.mk (s.toList.map Char.toLower)

/-- The destructuring `[hours, minutes] = preferredTime.split(':').map(Number)`:
either component is none when it is NaN or missing. -/
def parseHM (pt : String) : Option Nat × Option Nat :=
  match (splitOnChar ':' pt.toList).map jsNumber with
  | [] => (none, none)
  | [h] => (h, none)
  | h :: m :: _ => (h, m)

/-- The hour actually used: `hours || 12` (falsy hour, i.e. NaN or 0, becomes 12). -/
def hoursUsed (pt : String) : Nat :=
  match (parseHM pt).1 with
  | some n => if n = 0 then 12 else n
  | none => 12

/-- The minute actually used: `minutes || 0` (falsy minute becomes 0). -/
def minutesUsed (pt : String) : Nat :=
  ((parseHM pt).2).getD 0

/-- addTimeToDate adds an interval to a date in the given unit; the switch
default duplicates the days case. -/
def addTimeToDate (t : Nat) (interval : Nat) (unit : TimeUnit) : Nat :=
  match unit with
  | .minutes => t + interval * 60
  | .hours => t + interval * 3600
  | .days => t + interval * secondsPerDay
  | .otherUnit => t + interval * secondsPerDay

/-- Day index of a timestamp. -/
def dayOf (t : Nat) : Nat := t / secondsPerDay

/-- Weekday with the JavaScript convention Sun=0..Sat=6; day 0 is a Thursday. -/
def weekday (t : Nat) : Nat := (dayOf t + 4) % 7

/-- The weekdayMap lookup table of findNextWeekdayDate. -/
def weekdayMap (s : String) : Option Nat :=
  if s = "sunday" then some 0
  else if s = "monday" then some 1
  else if s = "tuesday" then some 2
  else if s = "wednesday" then some 3
  else if s = "thursday" then some 4
  else if s = "friday" then some 5
  else if s = "saturday" then some 6
  else none

/-- The recognized weekday numbers:
`preferredDays.map(day => weekdayMap[day.toLowerCase()]).filter(defined)`. -/
def recognizedDayNumbers (preferredDays : List String) : List Nat :=
  preferredDays.filterMap (fun d => weekdayMap (jsToLower d))

/-- The recognized preferred weekday numbers sorted ascending, modelling
`.sort((a, b) => a - b)`. -/
def preferredDayNumbers (preferredDays : List String) : List Nat :=
  (recognizedDayNumbers preferredDays).insertionSort (· ≤ ·)

/-- The function findNextWeekdayDate(baseDate, preferredDays): scan the sorted preferred
weekday numbers for the first one strictly greater than the weekday of the
base date, else wrap to the first preferred weekday of the next week; fall
back to the base date when no preferred day is recognized. -/
def findNextWeekdayDate (base : Nat) (preferredDays : List String) : Nat :=
  if preferredDays.isEmpty then base
  else
    let nums := preferredDayNumbers preferredDays
    if nums.isEmpty then base
    else
      let wd := weekday base
      match nums.find? (fun d => decide (wd < d)) with
      | some d => base + (d - wd) * secondsPerDay
      | none => base + (7 - wd + nums.headD 0) * secondsPerDay

/-- The base date of the calculator: today at the preferred time (with the
falsy-value fallbacks), advanced one day when already past. -/
def dailyCandidate (pt : String) (now : Nat) : Nat :=
  let base := dayOf now * secondsPerDay + hoursUsed pt * 3600 + minutesUsed pt * 60
  if base ≤ now then base + secondsPerDay else base

/-- Parameters of calculateNextScheduledDate; none models an undefined field,
replaced by the destructuring defaults. -/
structure ScheduleParams where
  frequency : Frequency
  customInterval : Option Nat := none
  customTimeUnit : Option TimeUnit := none
  preferredTime : Option String := none
  preferredDays : Option (List String) := none
deriving Repr, DecidableEq

/-- The source function calculateNextScheduledDate(params), evaluated at the
current time `now`. -/
def calculateNextScheduledDate (p : ScheduleParams) (now : Nat) : Nat :=
  let customInterval := p.customInterval.getD 1
  let customTimeUnit := p.customTimeUnit.getD .days
  let preferredTime := p.preferredTime.getD "12:00"
  let preferredDays := p.preferredDays.getD ["monday", "wednesday", "friday"]
  let baseDate := dailyCandidate preferredTime now
  match p.frequency with
  | .daily => baseDate
  | .weekly => findNextWeekdayDate baseDate preferredDays
  | .custom => addTimeToDate now customInterval customTimeUnit
  | .other => baseDate

/-! ### In-flight guard and scheduled post / poll dispatcher steps

The scheduler service holds a module-level set processingPosts; the
scheduled-post controller holds a distinct module-level set publishingPosts.
Both use the same has-then-add pattern, modelled as tryAcquire; JavaScript Set
insertion order is modelled by appending, Set.delete by filtering. -/

/-- tryAcquire: a no-op returning false when the id is already present,
otherwise insert and return true. -/
def tryAcquire (s : List String) (id : String) : Bool × List String :=
  if id ∈ s then (false, s) else (true, s ++ [id])

/-- release: Set.delete removes the id unconditionally. -/
def release (s : List String) (id : String) : List String :=
  s.filter (fun x => x ≠ id)

/-- The two module-level in-flight sets of the process: processingPosts in the
scheduler service and publishingPosts in the scheduled-post controller. -/
structure GuardState where
  processingPosts : List String
  publishingPosts : List String
deriving Repr, DecidableEq

/-- Acquisition performed by the cron dispatcher path (consults only
processingPosts). -/
def cronTryAcquire (g : GuardState) (id : String) : Bool × GuardState :=
  let r := tryAcquire g.processingPosts id
  (r.1, { g with processingPosts := r.2 })

/-- Acquisition performed by the manual publish controller path (consults only
publishingPosts). -/
def manualTryAcquire (g : GuardState) (id : String) : Bool × GuardState :=
  let r := tryAcquire g.publishingPosts id
  (r.1, { g with publishingPosts := r.2 })

/-- State touched by one dispatcher iteration: the persisted records of the
item kind being processed (by id), the in-flight set of that path, and a
trace of publish attempts (id, reported success flag). -/
structure TickState where
  store : List String
  processing : List String
  attempts : List (String × Bool)
deriving Repr, DecidableEq

/-- One iteration of the post loop of SchedulerService.processScheduledPosts
for a due post id: re-check that the record still exists, skip when already
in flight, otherwise add to processingPosts, resolve the owning user and
channel (ownerOk; a failed lookup hits a continue, with the finally block
releasing the marker), publish (publishToTelegram reports success or failure
and never throws), then delete the record unconditionally - the deletion is
not gated on the reported success flag - and release the marker. -/
def processScheduledPostItem (gateway : String → Bool) (ownerOk : String → Bool)
    (st : TickState) (postId : String) : TickState :=
  if postId ∈ st.store then
    if postId ∈ st.processing then st
    else
      let processing := st.processing ++ [postId]
      if ownerOk postId then
        let ok := gateway postId
        { store := st.store.filter (fun x => x ≠ postId),
          processing := release processing postId,
          attempts := st.attempts ++ [(postId, ok)] }
      else
        { st with processing := release processing postId }
  else st

/-- One iteration of the poll loop of SchedulerService.processScheduledPolls:
no existence re-check and no in-flight set; the record is deleted only when
the gateway reports success, otherwise it is left in place. -/
def processScheduledPollItem (gateway : String → Bool) (ownerOk : String → Bool)
    (st : TickState) (pollId : String) : TickState :=
  if ownerOk pollId then
    let ok := gateway pollId
    if ok then
      { st with store := st.store.filter (fun x => x ≠ pollId),
                attempts := st.attempts ++ [(pollId, ok)] }
    else
      { st with attempts := st.attempts ++ [(pollId, ok)] }
  else st

/-- One dispatcher tick over the due items of one kind, in query order. -/
def processScheduledPostsTick (gateway : String → Bool) (ownerOk : String → Bool)
    (st : TickState) (due : List String) : TickState :=
  due.foldl (processScheduledPostItem gateway ownerOk) st

/-- One poll dispatcher tick over the due polls, in query order. -/
def processScheduledPollsTick (gateway : String → Bool) (ownerOk : String → Bool)
    (st : TickState) (due : List String) : TickState :=
  due.foldl (processScheduledPollItem gateway ownerOk) st

/-! ### Content duplication service (ContentDuplicationService) -/

/-- A JavaScript word character [A-Za-z0-9_]; every other character
(punctuation, emoji, whitespace, non-ASCII) is turned into a separator by the
keyword regex pipeline. -/
def jsWordChar (c : Char) : Bool :=
  c.isAlpha || c.isDigit || c == '_'

/-- The bilingual stop-word list of isStopWord. -/
def stopWords : List String :=
  ["the", "a", "an", "and", "or", "but", "in", "on", "at", "to", "for", "of", "with", "by",
   "this", "that", "these", "those", "is", "are", "was", "were", "be", "been", "being",
   "have", "has", "had", "do", "does", "did", "will", "would", "could", "should",
   "from", "up", "about", "into", "through", "during", "before", "after", "above", "below",
   "can", "may", "might", "must", "shall", "his", "her", "its", "their", "our", "your",
   "что", "как", "это", "для", "при", "или", "так", "уже", "все", "еще", "его", "они"]

def isStopWord (word : String) : Bool :=
  stopWords.contains word

/-- First-occurrence deduplication, modelling `[...new Set(words)]`. -/
def dedupFirstAux : List String → List String → List String
  | acc, [] => acc
  | acc, w :: ws =>
      if w ∈ acc then dedupFirstAux acc ws else dedupFirstAux (acc ++ [w]) ws

def dedupFirst (l : List String) : List String :=
  dedupFirstAux [] l

/-- extractKeywords: lowercase, replace every non-word character by a space
(this covers both the punctuation regex and whitespace collapsing: the
separators between tokens are exactly the non-word characters), split, keep
words longer than 3 characters that are not stop-words, deduplicate keeping
first occurrences. -/
def extractKeywords (text : String) : List String :=
  let fields := splitOnChar ' '
    (text.toList.map (fun c => let lc := c.toLower; if jsWordChar lc then lc else ' '))
  let words := (fields.map String.mk).filter (fun w => w.length > 3 && !(isStopWord w))
  dedupFirst words

/-- calculateSimilarity: Jaccard index of the two keyword sets, 0 when either
input list is empty. -/
def calculateSimilarity (words1 words2 : List String) : ℚ :=
  if words1.isEmpty || words2.isEmpty then 0
  else
    let set1 := dedupFirst words1
    let set2 := dedupFirst words2
    let inter := set1.filter (fun w => decide (w ∈ set2))
    let union := dedupFirst (set1 ++ set2)
    (inter.length : ℚ) / (union.length : ℚ)

structure ContentSimilarityResult where
  isSimilar : Bool
  similarity : ℚ
  reason : Option String
deriving Repr, DecidableEq

def SIMILARITY_THRESHOLD : ℚ := 7 / 10

def MIN_WORDS_TO_CHECK : Nat := 10

/-- JavaScript String.prototype.trim on the character list. -/
def jsTrim (s : String) : List Char :=
  ((s.toList.dropWhile (fun c => c.isWhitespace)).reverse.dropWhile
    (fun c => c.isWhitespace)).reverse

/-- checkContentDuplication: short-circuit on empty content, empty history or
fewer than 10 candidate keywords; otherwise report the maximum similarity
against the history (computed by the strictly-greater update loop of the
source) and flag isSimilar when it reaches the threshold. The percentage
suffix that the source interpolates into the reason string is elided. -/
def checkContentDuplication (newContent : String) (contentHistory : List String)
    (threshold : ℚ) : ContentSimilarityResult :=
  if (jsTrim newContent).isEmpty then
    ContentSimilarityResult.mk false 0 (some "Empty content")
  else if contentHistory.isEmpty then
    ContentSimilarityResult.mk false 0 (some "No history to compare")
  else
    let newContentWords := extractKeywords newContent
    if newContentWords.length < MIN_WORDS_TO_CHECK then
      ContentSimilarityResult.mk false 0 (some "Content too short for comparison")
    else
      let maxSimilarity := contentHistory.foldl
        (fun acc h =>
          let sim := calculateSimilarity newContentWords (extractKeywords h)
          if acc < sim then sim else acc) 0
      let isSim := decide (threshold ≤ maxSimilarity)
      ContentSimilarityResult.mk isSim maxSimilarity
        (if isSim then some "Too similar to previous content" else none)

/-- Joining with single spaces, modelling Array.prototype.join(' '). -/
def joinSpace : List String → String
  | [] => ""
  | w :: ws => ws.foldl (fun a b => a ++ " " ++ b) w

/-- createContentSummary: the first 20 keywords joined by spaces, capped at
200 characters. -/
def createContentSummary (content : String) : String :=
  let keywords := extractKeywords content
  let summary := joinSpace (keywords.take 20)
  if summary.length > 200 then String.mk (summary.toList.take 200) else summary

/-- cleanContentHistory: bound the rolling list to max(daysToKeep * 2, 10)
most recent entries. -/
def cleanContentHistory (contentHistory : List String) (daysToKeep : Nat) : List String :=
  let maxEntries := max (daysToKeep * 2) 10
  if contentHistory.length ≤ maxEntries then contentHistory
  else contentHistory.drop (contentHistory.length - maxEntries)

/-- generateAntiDuplicationPrompt: append the anti-duplication instructions,
quoting the first 200 characters of the flagged content. -/
def generateAntiDuplicationPrompt (originalPrompt similarContent : String) : String :=
  originalPrompt ++ "\n\nIMPORTANT - AVOID DUPLICATION:\nThe following content was recently posted and should NOT be repeated:\n\"" ++
    String.mk (similarContent.toList.take 200) ++
    "...\"\n\nPlease create content that:\n- Covers DIFFERENT aspects of the topic\n- Uses DIFFERENT angles or perspectives\n- Focuses on NEW information or developments\n- Has a DIFFERENT tone or style\n- Avoids repeating the same key points or phrases\n\n"

/-- The maximum similarity reported against a history. -/
def maxSimOf (text : String) (hist : List String) : ℚ :=
  (hist.map (fun h => calculateSimilarity (extractKeywords text) (extractKeywords h))).foldl
    max 0

/-- Ten distinct non-stop-word keywords, each longer than 3 characters. -/
def sampleLongText : String :=
  "alpha bravo charlie delta echoes foxtrot golfing hotel india juliet"

/-! ### Autoposting executors

Two executors process a rule: the cron path (AutoPostingService.processDueRules,
per-rule loop body with its per-rule try/catch boundary) and the manual path
(the executeAutoPostingRule controller). External collaborators are oracles in
ExecEnv: generateText and generateImage may fail (Except), publishToChannel
reports success or failure and never throws, the web scraper returns rendered
article context blocks (a thrown scrape and an empty scrape both leave the
run without scraped content, as in the source where the error is caught
inline). ExecTrace records the observable collaborator calls of one run. -/

inductive HStatus
  | success
  | failed
deriving Repr, DecidableEq

structure AutoPostingHistoryEntry where
  ruleId : String
  ruleName : String
  postId : Option String
  content : Option String
  imageUrl : Option String
  status : HStatus
  error : Option String
  publishedAt : Nat
deriving Repr, DecidableEq

structure AutoPostingRule where
  id : String
  name : String
  topic : String
  statusActive : Bool
  schedule : ScheduleParams
  channelId : String
  imageGeneration : Bool
  keywords : List String
  sourceUrls : List String
  avoidDuplication : Bool
  duplicateCheckDays : Option Nat
  contentHistory : List String
  nextScheduled : Option Nat
  lastPublished : Option Nat
deriving Repr, DecidableEq

structure UserState where
  aiCredits : Int
  totalCreditsUsed : Int
  channels : List String
  autoPostingHistory : List AutoPostingHistoryEntry
deriving Repr, DecidableEq

structure PublishResult where
  success : Bool
  messageId : Option String
  error : Option String
deriving Repr, DecidableEq

structure ExecEnv where
  scrape : List String → List String
  genText : String → Except String String
  genImage : String → Except String String
  publish : String → PublishResult
  randIndex : Nat

structure ExecTrace where
  genTextCalls : Nat
  genImageCalls : Nat
  publishCalls : Nat
  dupChecks : Nat
  chosenText : Option String
deriving Repr, DecidableEq

/-- The keywords joined with comma-space and prefixed as in the source. -/
def keywordsTextOf (keywords : List String) : String :=
  if keywords.isEmpty then ""
  else
    " Include these keywords if possible: " ++
      (match keywords with
        | [] => ""
        | w :: ws => ws.foldl (fun a b => a ++ ", " ++ b) w) ++ "."

/-- The scraped-content context block; per-article rendering (Title,
Description, Content preview, Source) is folded into the scrape oracle
output, which sits at the external collaborator boundary. -/
def contextTextOf (blocks : List String) : String :=
  "\n\n--- IMPORTANT: Use the following RECENT INFORMATION as the PRIMARY BASIS for the post ---\n" ++
    blocks.foldl (fun a b => a ++ b) "" ++
    "\nIMPORTANT INSTRUCTIONS:\n- Base your post primarily on the information above\n- Synthesize insights from all articles\n- Include specific details, facts, or quotes from the sources\n- Reference the most interesting or newsworthy points\n- Make the post feel fresh and current\n"

/-- The context-primed prompt, identical in the cron and manual paths. -/
def scrapedPromptOf (topic contextText keywordsText : String) : String :=
  "You are creating a Telegram post about \"" ++ topic ++
    "\" based on recent information from reliable sources." ++ contextText ++
    "\n\nCreate an engaging, informative Telegram post that:\n1. PRIORITIZES the information from the sources above\n2. Presents the key insights in an engaging way\n3. Uses a conversational tone suitable for Telegram\n4. Is between 150-300 words\n5. Includes relevant emojis where appropriate" ++
    keywordsText ++
    "\n\nFocus on making the content feel current, newsworthy, and valuable to readers."

/-- The single generic topic prompt of the cron path. -/
def cronPlainPromptOf (topic keywordsText : String) : String :=
  "Create a post about " ++ topic ++
    " for a Telegram channel. Make it engaging and informative." ++ keywordsText ++
    " The post should be formatted for Telegram and be between 100-300 words."

/-- The five random templates of the manual controller path. -/
def manualPromptTemplates (topic keywordsText : String) : List String :=
  ["Create a concise post about " ++ topic ++
      " for a Telegram channel. Make it engaging and informative." ++ keywordsText ++
      " The post should be formatted for Telegram and be between 100-200 words maximum.",
    "Write a creative Telegram post about " ++ topic ++
      " with a unique angle or perspective." ++ keywordsText ++
      " Keep it under 200 words and make it stand out from typical content on this topic.",
    "Compose an engaging Telegram channel update on " ++ topic ++ "." ++ keywordsText ++
      " Be conversational and direct. Keep it concise (under 200 words) while still being informative.",
    "Draft a captivating Telegram post discussing recent developments in " ++ topic ++ "." ++
      keywordsText ++
      " Use an attention-grabbing opening and maintain reader interest throughout. Limit to 200 words.",
    "Create insider content about " ++ topic ++ " for a Telegram audience." ++ keywordsText ++
      " Share valuable insights in a compelling way. Keep it concise (100-200 words) and easy to read on mobile devices."]

/-- The scraped article blocks obtained by a run (scraping is attempted only
when sourceUrls is nonempty; a failure is caught inline and leaves no
context). -/
def scrapedBlocksOf (env : ExecEnv) (rule : AutoPostingRule) : List String :=
  if rule.sourceUrls.isEmpty then [] else env.scrape rule.sourceUrls

/-- The prompt assembled by the cron executor. -/
def cronPromptFor (env : ExecEnv) (rule : AutoPostingRule) : String :=
  let keywordsText := keywordsTextOf rule.keywords
  let blocks := scrapedBlocksOf env rule
  if blocks.isEmpty then cronPlainPromptOf rule.topic keywordsText
  else scrapedPromptOf rule.topic (contextTextOf blocks) keywordsText

/-- The prompt assembled by the manual controller (random template pick is
modelled by the randIndex oracle modulo the five templates). -/
def manualPromptFor (env : ExecEnv) (rule : AutoPostingRule) : String :=
  let keywordsText := keywordsTextOf rule.keywords
  let blocks := scrapedBlocksOf env rule
  if blocks.isEmpty then
    (manualPromptTemplates rule.topic keywordsText).getD (env.randIndex % 5) ""
  else scrapedPromptOf rule.topic (contextTextOf blocks) keywordsText

/-- Trim of a character list (used for the sanitized image topic). -/
def trimCharList (l : List Char) : List Char :=
  ((l.dropWhile (fun c => c.isWhitespace)).reverse.dropWhile (fun c => c.isWhitespace)).reverse

/-- The image prompt: strip non-ASCII from the topic; fall back to the generic
abstract prompt when nothing is left. -/
def imagePromptOf (topic : String) : String :=
  let sanitizedTopic := trimCharList (topic.toList.filter (fun c => c.toNat < 128))
  if sanitizedTopic.isEmpty then "Create an abstract image related to finance and technology"
  else "Create an image related to: " ++ String.mk sanitizedTopic

/-- requiredCredits: 1 for text only, 3 with image generation. -/
def requiredCreditsOf (rule : AutoPostingRule) : Int :=
  if rule.imageGeneration then 3 else 1

/-- The history entry recorded by the per-rule failure paths (no content, no
post id). -/
def failedEntry (rule : AutoPostingRule) (msg : String) (now : Nat) : AutoPostingHistoryEntry :=
  AutoPostingHistoryEntry.mk rule.id rule.name none none none .failed (some msg) now

/-- The rule with nextScheduled recomputed, as done on every cron outcome. -/
def rescheduled (rule : AutoPostingRule) (now : Nat) : AutoPostingRule :=
  { rule with nextScheduled := some (calculateNextScheduledDate rule.schedule now) }

/-- One rule processed by the cron executor (the loop body of
AutoPostingService.processDueRules including its per-rule try/catch): credit
check first (terminal failure entry, reschedule, no generation); then text
generation (a thrown generation is caught at the per-rule boundary); image
generation failure is caught inline, refunding the 2 image credits onto the
balance while the full requiredCredits is still debited later; a missing
channel throws and is caught at the per-rule boundary (the refund mutation
performed before the throw persists); publish never throws; then debit,
lastPublished, reschedule and exactly one history entry. -/
def cronProcessRule (env : ExecEnv) (now : Nat) (user : UserState)
    (rule : AutoPostingRule) : UserState × AutoPostingRule × ExecTrace :=
  let requiredCredits := requiredCreditsOf rule
  if user.aiCredits < requiredCredits then
    ({ user with autoPostingHistory := user.autoPostingHistory ++
        [failedEntry rule "Not enough AI credits" now] },
      rescheduled rule now,
      ExecTrace.mk 0 0 0 0 none)
  else
    match env.genText (cronPromptFor env rule) with
    | .error msg =>
        ({ user with autoPostingHistory := user.autoPostingHistory ++
            [failedEntry rule msg now] },
          rescheduled rule now,
          ExecTrace.mk 1 0 0 0 none)
    | .ok generatedText =>
        let imgAttempt := if rule.imageGeneration then
            some (env.genImage (imagePromptOf rule.topic)) else none
        let generatedImageUrl := match imgAttempt with
          | some (.ok url) => some url
          | _ => none
        let refund : Int := match imgAttempt with
          | some (.error _) => 2
          | _ => 0
        let imgCalls := if rule.imageGeneration then 1 else 0
        let user1 := { user with aiCredits := user.aiCredits + refund }
        if rule.channelId ∈ user1.channels then
          let publishResult := env.publish generatedText
          let user2 := { user1 with
            aiCredits := user1.aiCredits - requiredCredits,
            totalCreditsUsed := user1.totalCreditsUsed + requiredCredits,
            autoPostingHistory := user1.autoPostingHistory ++
              [AutoPostingHistoryEntry.mk rule.id rule.name publishResult.messageId
                (some generatedText) generatedImageUrl
                (if publishResult.success then .success else .failed)
                (if publishResult.success then none else publishResult.error) now] }
          (user2,
            { rescheduled rule now with lastPublished := some now },
            ExecTrace.mk 1 imgCalls 1 0 (some generatedText))
        else
          ({ user1 with autoPostingHistory := user1.autoPostingHistory ++
              [failedEntry rule ("Channel not found for rule " ++ rule.id) now] },
            rescheduled rule now,
            ExecTrace.mk 1 imgCalls 0 0 (some generatedText))

/-- The cron loop over the due rules of one tenant: state threaded rule by
rule, each rule isolated by its own try/catch inside cronProcessRule. -/
def processDueRules (env : ExecEnv) (now : Nat) (user : UserState) :
    List AutoPostingRule → UserState × List AutoPostingRule
  | [] => (user, [])
  | r :: rs =>
      let res := cronProcessRule env now user r
      let rest := processDueRules env now res.1 rs
      (rest.1, res.2.1 :: rest.2)

/-- The cron tick over all fetched tenants. -/
def processTenants (env : ExecEnv) (now : Nat)
    (tenants : List (UserState × List AutoPostingRule)) :
    List (UserState × List AutoPostingRule) :=
  tenants.map (fun t => processDueRules env now t.1 t.2)

inductive ManualOutcome
  | httpError (status : Nat) (message : String)
  | executed (creditsUsed : Int)
deriving Repr, DecidableEq

/-- Tail of the manual controller after the final text is fixed: optional
image generation (failure is caught inline and drops requiredCredits to 1),
channel resolution (404 return, nothing mutated), publish, debit,
lastPublished, contentHistory append-and-trim when avoidDuplication and the
publish succeeded (duplicateCheckDays falsy falls back to 7), reschedule and
one history entry. -/
def manualFinish (env : ExecEnv) (now : Nat) (user : UserState) (rule : AutoPostingRule)
    (generatedText : String) (tr : ExecTrace) :
    UserState × AutoPostingRule × ManualOutcome × ExecTrace :=
  let imgAttempt := if rule.imageGeneration then
      some (env.genImage (imagePromptOf rule.topic)) else none
  let generatedImageUrl := match imgAttempt with
    | some (.ok url) => some url
    | _ => none
  let requiredCredits : Int := match imgAttempt with
    | some (.error _) => 1
    | _ => requiredCreditsOf rule
  let tr1 := { tr with genImageCalls :=
    tr.genImageCalls + (if rule.imageGeneration then 1 else 0) }
  if rule.channelId ∈ user.channels then
    let publishResult := env.publish generatedText
    let newContentHistory :=
      if rule.avoidDuplication && publishResult.success then
        cleanContentHistory (rule.contentHistory ++ [createContentSummary generatedText])
          (match rule.duplicateCheckDays with
            | some n => if n = 0 then 7 else n
            | none => 7)
      else rule.contentHistory
    let user1 := { user with
      aiCredits := user.aiCredits - requiredCredits,
      totalCreditsUsed := user.totalCreditsUsed + requiredCredits,
      autoPostingHistory := user.autoPostingHistory ++
        [AutoPostingHistoryEntry.mk rule.id rule.name publishResult.messageId
          (some generatedText) generatedImageUrl
          (if publishResult.success then .success else .failed)
          (if publishResult.success then none else publishResult.error) now] }
    let rule1 := { rule with
      lastPublished := some now,
      contentHistory := newContentHistory,
      nextScheduled := some (calculateNextScheduledDate rule.schedule now) }
    (user1, rule1, ManualOutcome.executed requiredCredits,
      { tr1 with publishCalls := tr1.publishCalls + 1 })
  else
    (user, rule, ManualOutcome.httpError 404 "Channel not found", tr1)

/-- The manual execute controller (executeAutoPostingRule): reject inactive
rules and insufficient credits with HTTP errors before any generation (no
history entry, no reschedule); generate the text (a thrown generation is
caught by the outer catch as a 500 with nothing persisted); when
avoidDuplication is set, run exactly one duplication check against
contentHistory at threshold 0.7 and, when flagged, exactly one regeneration
with the anti-duplication prompt whose result is kept without a second check;
then proceed with manualFinish. -/
def executeAutoPostingRule (env : ExecEnv) (now : Nat) (user : UserState)
    (rule : AutoPostingRule) : UserState × AutoPostingRule × ManualOutcome × ExecTrace :=
  if rule.statusActive then
    if user.aiCredits < requiredCreditsOf rule then
      (user, rule, ManualOutcome.httpError 400 "Not enough AI credits to execute autoposting rule",
        ExecTrace.mk 0 0 0 0 none)
    else
      match env.genText (manualPromptFor env rule) with
      | .error msg =>
          (user, rule, ManualOutcome.httpError 500 msg, ExecTrace.mk 1 0 0 0 none)
      | .ok text0 =>
          if rule.avoidDuplication &&
              (checkContentDuplication text0 rule.contentHistory (7 / 10)).isSimilar then
            match env.genText (generateAntiDuplicationPrompt (manualPromptFor env rule) text0) with
            | .error msg =>
                (user, rule, ManualOutcome.httpError 500 msg, ExecTrace.mk 2 0 0 1 none)
            | .ok text1 =>
                manualFinish env now user rule text1 (ExecTrace.mk 2 0 0 1 (some text1))
          else
            manualFinish env now user rule text0
              (ExecTrace.mk 1 0 0 (if rule.avoidDuplication then 1 else 0) (some text0))
  else
    (user, rule, ManualOutcome.httpError 400 "Cannot execute inactive autoposting rule",
      ExecTrace.mk 0 0 0 0 none)

/-- A text-only rule used by several concrete runs. -/
def ruleTextW : AutoPostingRule :=
  AutoPostingRule.mk "r1" "rule one" "economy" true
    (ScheduleParams.mk .daily none none none none) "c1" false [] [] false (some 7) [] none none

/-- An environment whose collaborators all succeed. -/
def envOkW : ExecEnv :=
  ExecEnv.mk (fun _ => []) (fun _ => .ok "generated") (fun _ => .ok "img-url")
    (fun _ => PublishResult.mk true (some "1") none) 0

/-- A tenant with no credits. -/
def brokeUserW : UserState := UserState.mk 0 0 ["c1"] []

/-- An environment whose text generation always throws. -/
def envErrW : ExecEnv :=
  ExecEnv.mk (fun _ => []) (fun _ => .error "OpenAI error") (fun _ => .error "img")
    (fun _ => PublishResult.mk false none (some "fail")) 0

/-- A tenant with ample credits. -/
def richUserW : UserState := UserState.mk 5 0 ["c1"] []

/-- A rule with avoidDuplication enabled whose content history already holds
the very text the generator will produce. -/
def dupRuleW : AutoPostingRule :=
  AutoPostingRule.mk "r2" "rule two" "economy" true
    (ScheduleParams.mk .daily none none none none) "c1" false [] [] true (some 7)
    [sampleLongText] none none

/-- An environment whose text generation always returns sampleLongText. -/
def dupEnvW : ExecEnv :=
  ExecEnv.mk (fun _ => []) (fun _ => .ok sampleLongText) (fun _ => .error "img")
    (fun _ => PublishResult.mk true (some "1") none) 0

/-! ## Theorems -/

/-! #### Basic facts about the calculator -/

theorem now_lt_dailyCandidate (pt : String) (now : Nat) :
    now < dailyCandidate pt now := by
  unfold dailyCandidate dayOf
  have hmod := Nat.div_add_mod now secondsPerDay
  have hlt : now % secondsPerDay < secondsPerDay :=
    Nat.mod_lt _ (by unfold secondsPerDay; omega)
  unfold secondsPerDay at *
  dsimp only
  split <;> omega

theorem base_le_findNextWeekdayDate (base : Nat) (days : List String) :
    base ≤ findNextWeekdayDate base days := by
  unfold findNextWeekdayDate
  dsimp only
  split
  · exact le_refl _
  · split
    · exact le_refl _
    · split <;> exact Nat.le_add_right _ _

/-- C6: for every parameter record whose customInterval, when present, is a
positive integer, the recurrence calculator returns a timestamp strictly
greater than the time at which it is computed, for DAILY, WEEKLY and CUSTOM
frequencies and for the unknown-frequency default branch. -/
theorem nextScheduled_strictly_future (p : ScheduleParams) (now : Nat)
    (hpos : ∀ n, p.customInterval = some n → 1 ≤ n) :
    now < calculateNextScheduledDate p now := by
  unfold calculateNextScheduledDate
  dsimp only
  cases p.frequency with
  | daily => exact now_lt_dailyCandidate _ _
  | other => exact now_lt_dailyCandidate _ _
  | weekly =>
      exact lt_of_lt_of_le (now_lt_dailyCandidate _ _) (base_le_findNextWeekdayDate _ _)
  | custom =>
      have hi : 1 ≤ p.customInterval.getD 1 := by
        cases h : p.customInterval with
        | none => simp
        | some n => simpa using hpos n h
      unfold addTimeToDate
      cases p.customTimeUnit.getD .days <;>
        simp only [secondsPerDay] <;> omega

theorem nextScheduled_strictly_future_witness :
    (∀ n, (ScheduleParams.mk .custom (some 30) (some .minutes) none none).customInterval =
        some n → 1 ≤ n) ∧
      1000 < calculateNextScheduledDate
        (ScheduleParams.mk .custom (some 30) (some .minutes) none none) 1000 :=
  ⟨fun n h => by injection h with h; omega,
    nextScheduled_strictly_future _ _ (fun n h => by injection h with h; omega)⟩

/-- C7: a CUSTOM rule with interval n in minutes, hours or days computed at
time now yields exactly now plus n of that unit, for every preferredTime and
preferredDays value (the custom cadence is now-relative, not anchored to the
preferred clock time). -/
theorem custom_cadence_now_relative (pt : Option String) (pd : Option (List String))
    (now n : Nat) :
    calculateNextScheduledDate (ScheduleParams.mk .custom (some n) (some .minutes) pt pd) now =
        now + n * 60 ∧
      calculateNextScheduledDate (ScheduleParams.mk .custom (some n) (some .hours) pt pd) now =
        now + n * 3600 ∧
      calculateNextScheduledDate (ScheduleParams.mk .custom (some n) (some .days) pt pd) now =
        now + n * 86400 :=
  ⟨rfl, rfl, rfl⟩

/-! #### The weekly scan picks the least preferred weekday after the current one -/

theorem headD_mem_of_ne_nil {l : List Nat} (h : l ≠ []) : l.headD 0 ∈ l := by
  cases l with
  | nil => exact absurd rfl h
  | cons a t => exact List.mem_cons_self a t

theorem sorted_headD_le {l : List Nat} (hs : l.Sorted (· ≤ ·)) :
    ∀ y ∈ l, l.headD 0 ≤ y := by
  cases l with
  | nil => intro y hy; exact absurd hy (List.not_mem_nil y)
  | cons a t =>
      intro y hy
      rcases List.mem_cons.mp hy with h | h
      · exact h ▸ le_refl _
      · exact (List.sorted_cons.mp hs).1 y h

theorem find?_lt_min {l : List Nat} (hs : l.Sorted (· ≤ ·)) {wd x : Nat}
    (hf : l.find? (fun d => decide (wd < d)) = some x) :
    ∀ y ∈ l, wd < y → x ≤ y := by
  induction l with
  | nil => simp at hf
  | cons a l ih =>
      rcases List.sorted_cons.mp hs with ⟨ha, hs'⟩
      by_cases h : wd < a
      · rw [List.find?_cons_of_pos _ (by simpa using h)] at hf
        injection hf with hf
        intro y hy hwy
        rcases List.mem_cons.mp hy with rfl | hmem
        · exact hf ▸ le_refl _
        · exact hf ▸ ha y hmem
      · rw [List.find?_cons_of_neg _ (by simpa using h)] at hf
        intro y hy hwy
        rcases List.mem_cons.mp hy with rfl | hmem
        · exact absurd hwy h
        · exact ih hs' hf y hmem hwy

theorem preferredDayNumbers_sorted (days : List String) :
    (preferredDayNumbers days).Sorted (· ≤ ·) :=
  List.sorted_insertionSort _ _

theorem mem_preferredDayNumbers {days : List String} {d : Nat} :
    d ∈ preferredDayNumbers days ↔ d ∈ recognizedDayNumbers days :=
  (List.perm_insertionSort _ _).mem_iff

/-- C8: the WEEKLY branch delegates to findNextWeekdayDate on the DAILY
candidate; findNextWeekdayDate returns the candidate unmodified when no
preferred day is recognized, moves to the least recognized weekday strictly
after the candidate weekday when one exists, and otherwise wraps by
7 - currentWeekday + firstPreferredWeekday days; with preferredDays monday and
friday and now = Saturday 00:00 (day 2 of the epoch week), the result is the
following Monday at the preferred time 12:00. -/
theorem weekly_picks_least_following_weekday :
    (∀ pt pd now, calculateNextScheduledDate
        (ScheduleParams.mk .weekly none none (some pt) (some pd)) now =
        findNextWeekdayDate (dailyCandidate pt now) pd)
    ∧ (∀ b days, recognizedDayNumbers days = [] → findNextWeekdayDate b days = b)
    ∧ (∀ b days d₀,
        IsLeast (setOf fun d => d ∈ recognizedDayNumbers days ∧ weekday b < d) d₀ →
        findNextWeekdayDate b days = b + (d₀ - weekday b) * secondsPerDay)
    ∧ (∀ b days m, IsLeast (setOf fun d => d ∈ recognizedDayNumbers days) m →
        (∀ d ∈ recognizedDayNumbers days, d ≤ weekday b) →
        findNextWeekdayDate b days = b + (7 - weekday b + m) * secondsPerDay)
    ∧ (calculateNextScheduledDate
        (ScheduleParams.mk .weekly none none (some "12:00") (some ["monday", "friday"]))
        172800 = 388800
      ∧ weekday 172800 = 6 ∧ 172800 % 86400 = 0
      ∧ weekday 388800 = 1 ∧ 388800 % 86400 = 12 * 3600
      ∧ 388800 - dailyCandidate "12:00" 172800 = 2 * 86400) := by
  refine ⟨fun pt pd now => rfl, ?_, ?_, ?_, by decide⟩
  · intro b days h
    unfold findNextWeekdayDate
    by_cases hd : days.isEmpty
    · simp [hd]
    · simp [hd, preferredDayNumbers, h]
  · intro b days d₀ ⟨⟨hmem, hlt⟩, hlb⟩
    have hdays : ¬ days.isEmpty := by
      intro h
      rw [List.isEmpty_iff] at h
      subst h
      simp [recognizedDayNumbers] at hmem
    have hmem' : d₀ ∈ preferredDayNumbers days := mem_preferredDayNumbers.mpr hmem
    have hnums : ¬ (preferredDayNumbers days).isEmpty := by
      intro h
      rw [List.isEmpty_iff] at h
      rw [h] at hmem'
      exact List.not_mem_nil d₀ hmem'
    have hsome : ((preferredDayNumbers days).find?
        (fun d => decide (weekday b < d))).isSome := by
      rw [List.find?_isSome]
      exact ⟨d₀, hmem', by simpa using hlt⟩
    obtain ⟨x, hx⟩ := Option.isSome_iff_exists.mp hsome
    have hxlt : weekday b < x := by simpa using List.find?_some hx
    have hxmem : x ∈ preferredDayNumbers days := List.mem_of_find?_eq_some hx
    have hx_le : x ≤ d₀ :=
      find?_lt_min (preferredDayNumbers_sorted days) hx d₀ hmem' hlt
    have hd_le : d₀ ≤ x := hlb ⟨mem_preferredDayNumbers.mp hxmem, hxlt⟩
    have hxd : x = d₀ := le_antisymm hx_le hd_le
    unfold findNextWeekdayDate
    simp only [hdays, if_false, hnums, hx, hxd]
    simp
  · intro b days m ⟨hmem, hlb⟩ hbound
    have hdays : ¬ days.isEmpty := by
      intro h
      rw [List.isEmpty_iff] at h
      subst h
      simp [Set.mem_setOf_eq, recognizedDayNumbers] at hmem
    have hmem' : m ∈ preferredDayNumbers days := mem_preferredDayNumbers.mpr hmem
    have hnums : ¬ (preferredDayNumbers days).isEmpty := by
      intro h
      rw [List.isEmpty_iff] at h
      rw [h] at hmem'
      exact List.not_mem_nil m hmem'
    have hnone : (preferredDayNumbers days).find? (fun d => decide (weekday b < d)) = none := by
      rw [List.find?_eq_none]
      intro y hy
      simpa using Nat.not_lt.mpr (hbound y (mem_preferredDayNumbers.mp hy))
    have hhead : (preferredDayNumbers days).headD 0 = m := by
      have h1 : (preferredDayNumbers days).headD 0 ≤ m :=
        sorted_headD_le (preferredDayNumbers_sorted days) m hmem'
      have h2 : m ≤ (preferredDayNumbers days).headD 0 :=
        hlb (mem_preferredDayNumbers.mp
          (headD_mem_of_ne_nil (by simpa [List.isEmpty_iff] using hnums)))
      exact le_antisymm h1 h2
    unfold findNextWeekdayDate
    simp only [hdays, if_false, hnone, hhead]
    simp [hnums]

theorem recognized_monday_friday :
    recognizedDayNumbers ["monday", "friday"] = [1, 5] := by decide

theorem weekly_picks_least_following_weekday_witness :
    (∀ d ∈ recognizedDayNumbers ["monday", "friday"], d ≤ weekday 216000) ∧
      findNextWeekdayDate 216000 ["monday", "friday"] = 216000 + (7 - 6 + 1) * 86400 :=
  ⟨by decide,
    weekly_picks_least_following_weekday.2.2.2.1 216000 ["monday", "friday"] 1
      ⟨show (1 : Nat) ∈ recognizedDayNumbers ["monday", "friday"] by decide,
        fun d hd => by
          have hd' : d ∈ recognizedDayNumbers ["monday", "friday"] := hd
          rw [recognized_monday_friday] at hd'
          simp at hd'
          omega⟩
      (by decide)⟩

/-- C10: when the hour component of preferredTime parses to 0, the falsy-value
fallback substitutes hour 12 while the minutes component (when below 60) is
preserved, so for a DAILY rule the scheduled time of day is 12:MM, never the
midnight hour. -/
theorem midnight_hour_becomes_noon (pt : String) (pd : Option (List String))
    (now m : Nat) (h0 : (parseHM pt).1 = some 0) (hm : (parseHM pt).2 = some m)
    (hm60 : m < 60) :
    hoursUsed pt = 12 ∧ minutesUsed pt = m ∧
      calculateNextScheduledDate (ScheduleParams.mk .daily none none (some pt) pd) now %
        86400 = 12 * 3600 + m * 60 := by
  have h12 : hoursUsed pt = 12 := by unfold hoursUsed; rw [h0]; simp
  have hmin : minutesUsed pt = m := by unfold minutesUsed; rw [hm]; rfl
  refine ⟨h12, hmin, ?_⟩
  show dailyCandidate pt now % 86400 = 12 * 3600 + m * 60
  unfold dailyCandidate dayOf secondsPerDay
  rw [h12, hmin]
  have hdm := Nat.div_add_mod now 86400
  have hlt : now % 86400 < 86400 := Nat.mod_lt _ (by omega)
  dsimp only
  split <;> omega

theorem midnight_hour_becomes_noon_witness :
    ((parseHM "00:30").1 = some 0 ∧ (parseHM "00:30").2 = some 30 ∧ 30 < 60) ∧
      (hoursUsed "00:30" = 12 ∧ minutesUsed "00:30" = 30 ∧
        calculateNextScheduledDate
          (ScheduleParams.mk .daily none none (some "00:30") none) 0 % 86400 =
          12 * 3600 + 30 * 60) :=
  ⟨⟨by decide, by decide, by decide⟩,
    midnight_hour_becomes_noon "00:30" none 0 30 (by decide) (by decide) (by decide)⟩

/-- C1 (evaluation at the failing input): a due scheduled post whose publish
the gateway reports as failed is nevertheless deleted from the store by the
dispatcher tick - the deletion on line 1105 of the scheduler post loop is not
conditioned on result.success - so the record is not retained for retry; the
poll loop by contrast retains the record on reported failure and deletes it
only after a successful tick. -/
theorem failed_post_deleted_failed_poll_retained :
    (processScheduledPostsTick (fun _ => false) (fun _ => true)
        (TickState.mk ["X"] [] []) ["X"]).store = []
    ∧ (processScheduledPostsTick (fun _ => false) (fun _ => true)
        (TickState.mk ["X"] [] []) ["X"]).attempts = [("X", false)]
    ∧ (processScheduledPollsTick (fun _ => false) (fun _ => true)
        (TickState.mk ["X"] [] []) ["X"]).store = ["X"]
    ∧ (processScheduledPollsTick (fun _ => true) (fun _ => true)
        (processScheduledPollsTick (fun _ => false) (fun _ => true)
          (TickState.mk ["X"] [] []) ["X"]) ["X"]).store = [] := by decide

/-- C5 counterexample: the cron dispatcher path and the manual publish path
consult two distinct module-level sets, so an acquisition of the same id by
each path, with no release in between, succeeds twice - the guard does not
provide cross-path mutual exclusion. -/
theorem cross_path_double_acquire_succeeds :
    (cronTryAcquire (GuardState.mk [] []) "X").1 = true
    ∧ (manualTryAcquire (cronTryAcquire (GuardState.mk [] []) "X").2 "X").1 = true := by
  decide

/-- C5 amended: within the in-flight set of a single path, tryAcquire on a
present id is a no-op returning false, on an absent id it inserts and returns
true, two acquisitions of the same id before any release succeed exactly
once, release removes the id, and the scheduler post step acquires only after
re-confirming the item exists in the store: a missing item leaves the whole
state, guard included, untouched. -/
theorem inflight_guard_per_path_exclusion (s : List String) (id : String) :
    (id ∈ s → tryAcquire s id = (false, s))
    ∧ (id ∉ s → tryAcquire s id = (true, s ++ [id]))
    ∧ ((tryAcquire s id).1 = true → (tryAcquire (tryAcquire s id).2 id).1 = false)
    ∧ id ∉ release s id
    ∧ (∀ gateway ownerOk st, id ∉ st.store →
        processScheduledPostItem gateway ownerOk st id = st) := by
  refine ⟨?_, ?_, ?_, ?_, ?_⟩
  · intro h; simp [tryAcquire, h]
  · intro h; simp [tryAcquire, h]
  · by_cases h : id ∈ s
    · simp [tryAcquire, h]
    · simp [tryAcquire, h]
  · simp [release]
  · intro gateway ownerOk st h
    simp [processScheduledPostItem, h]

theorem inflight_guard_per_path_exclusion_witness :
    ("X" ∉ ([] : List String)) ∧ tryAcquire [] "X" = (true, ["X"]) :=
  ⟨by decide, (inflight_guard_per_path_exclusion [] "X").2.1 (by decide)⟩

/-! #### Facts about deduplication, Jaccard similarity and the maximum loop -/

theorem mem_dedupFirstAux {x : String} :
    ∀ (l acc : List String), x ∈ dedupFirstAux acc l ↔ x ∈ acc ∨ x ∈ l := by
  intro l
  induction l with
  | nil => intro acc; simp [dedupFirstAux]
  | cons w ws ih =>
      intro acc
      unfold dedupFirstAux
      split
      next h =>
        rw [ih]
        simp only [List.mem_cons]
        constructor
        · rintro (hx | hx)
          · exact Or.inl hx
          · exact Or.inr (Or.inr hx)
        · rintro (hx | rfl | hx)
          · exact Or.inl hx
          · exact Or.inl h
          · exact Or.inr hx
      next h =>
        rw [ih]
        simp only [List.mem_append, List.mem_singleton, List.mem_cons]
        tauto

theorem nodup_dedupFirstAux :
    ∀ (l acc : List String), acc.Nodup → (dedupFirstAux acc l).Nodup := by
  intro l
  induction l with
  | nil => intro acc h; exact h
  | cons w ws ih =>
      intro acc h
      unfold dedupFirstAux
      split
      next => exact ih acc h
      next hw =>
        refine ih _ ?_
        rw [List.nodup_append]
        refine ⟨h, List.nodup_singleton w, ?_⟩
        intro a ha ha'
        simp only [List.mem_singleton] at ha'
        subst ha'
        exact hw ha

theorem nodup_dedupFirst (l : List String) : (dedupFirst l).Nodup :=
  nodup_dedupFirstAux l [] List.nodup_nil

theorem mem_dedupFirst {x : String} {l : List String} : x ∈ dedupFirst l ↔ x ∈ l := by
  unfold dedupFirst
  rw [mem_dedupFirstAux]
  simp

theorem dedupFirstAux_cons_mem {acc : List String} {w : String} {ws : List String}
    (h : w ∈ acc) : dedupFirstAux acc (w :: ws) = dedupFirstAux acc ws := by
  show (if w ∈ acc then dedupFirstAux acc ws else dedupFirstAux (acc ++ [w]) ws) = _
  rw [if_pos h]

theorem dedupFirstAux_cons_not_mem {acc : List String} {w : String} {ws : List String}
    (h : w ∉ acc) : dedupFirstAux acc (w :: ws) = dedupFirstAux (acc ++ [w]) ws := by
  show (if w ∈ acc then dedupFirstAux acc ws else dedupFirstAux (acc ++ [w]) ws) = _
  rw [if_neg h]

theorem dedupFirstAux_append (l₁ l₂ : List String) :
    ∀ acc, dedupFirstAux acc (l₁ ++ l₂) = dedupFirstAux (dedupFirstAux acc l₁) l₂ := by
  induction l₁ with
  | nil => intro acc; rfl
  | cons w ws ih =>
      intro acc
      rw [List.cons_append]
      by_cases h : w ∈ acc
      · rw [dedupFirstAux_cons_mem h, ih, dedupFirstAux_cons_mem h]
      · rw [dedupFirstAux_cons_not_mem h, ih, dedupFirstAux_cons_not_mem h]

theorem dedupFirstAux_absorb :
    ∀ (l acc : List String), (∀ x ∈ l, x ∈ acc) → dedupFirstAux acc l = acc := by
  intro l
  induction l with
  | nil => intro acc _; rfl
  | cons w ws ih =>
      intro acc h
      unfold dedupFirstAux
      rw [if_pos (h w (List.mem_cons_self w ws))]
      exact ih acc (fun x hx => h x (List.mem_cons_of_mem w hx))

theorem dedupFirstAux_disjoint :
    ∀ (l acc : List String), l.Nodup → (∀ x ∈ l, x ∉ acc) →
      dedupFirstAux acc l = acc ++ l := by
  intro l
  induction l with
  | nil => intro acc _ _; simp [dedupFirstAux]
  | cons w ws ih =>
      intro acc hnd hdis
      unfold dedupFirstAux
      rw [if_neg (hdis w (List.mem_cons_self w ws))]
      rw [ih (acc ++ [w]) (List.nodup_cons.mp hnd).2]
      · simp
      · intro x hx
        rw [List.mem_append, List.mem_singleton]
        rintro (hx' | rfl)
        · exact hdis x (List.mem_cons_of_mem w hx) hx'
        · exact (List.nodup_cons.mp hnd).1 hx

theorem dedupFirst_eq_self {l : List String} (h : l.Nodup) : dedupFirst l = l := by
  have := dedupFirstAux_disjoint l [] h (by simp)
  simpa [dedupFirst] using this

theorem dedupFirst_self_append {l : List String} (h : l.Nodup) :
    dedupFirst (l ++ l) = l := by
  unfold dedupFirst
  rw [dedupFirstAux_append]
  rw [show dedupFirstAux [] l = l from dedupFirst_eq_self h]
  exact dedupFirstAux_absorb l l (fun x hx => hx)

theorem dedupFirst_ne_nil {l : List String} (h : l ≠ []) : dedupFirst l ≠ [] := by
  intro hd
  rcases List.exists_mem_of_ne_nil l h with ⟨x, hx⟩
  have hmem := mem_dedupFirst.mpr hx
  rw [hd] at hmem
  exact List.not_mem_nil x hmem

theorem extractKeywords_nodup (text : String) : (extractKeywords text).Nodup :=
  nodup_dedupFirst _

theorem calculateSimilarity_nonneg (w1 w2 : List String) :
    0 ≤ calculateSimilarity w1 w2 := by
  unfold calculateSimilarity
  split
  · exact le_refl 0
  · exact div_nonneg (Nat.cast_nonneg _) (Nat.cast_nonneg _)

theorem calculateSimilarity_self {w : List String} (h : w ≠ []) :
    calculateSimilarity w w = 1 := by
  unfold calculateSimilarity
  have hne : w.isEmpty = false := by
    cases w with
    | nil => exact absurd rfl h
    | cons a t => rfl
  rw [hne]
  rw [if_neg (by simp)]
  dsimp only
  have hnodup : (dedupFirst w).Nodup := nodup_dedupFirst w
  have hfilter : (dedupFirst w).filter (fun x => decide (x ∈ dedupFirst w)) = dedupFirst w :=
    List.filter_eq_self.mpr (fun a ha => by simpa using ha)
  rw [hfilter, dedupFirst_self_append hnodup]
  have hlen : (dedupFirst w).length ≠ 0 := by
    intro h0
    exact dedupFirst_ne_nil h (List.length_eq_zero.mp h0)
  exact div_self (by exact_mod_cast hlen)

theorem foldl_max_init_le (l : List ℚ) : ∀ a, a ≤ l.foldl max a := by
  induction l with
  | nil => intro a; exact le_refl a
  | cons x xs ih => intro a; exact le_trans (le_max_left a x) (ih (max a x))

theorem le_foldl_max (l : List ℚ) : ∀ a, ∀ x ∈ l, x ≤ l.foldl max a := by
  induction l with
  | nil => intro a x hx; exact absurd hx (List.not_mem_nil x)
  | cons y ys ih =>
      intro a x hx
      rcases List.mem_cons.mp hx with rfl | hmem
      · exact le_trans (le_max_right a x) (foldl_max_init_le ys (max a x))
      · exact ih (max a y) x hmem

theorem foldl_max_mem (l : List ℚ) : ∀ a, l.foldl max a = a ∨ l.foldl max a ∈ l := by
  induction l with
  | nil => intro a; exact Or.inl rfl
  | cons y ys ih =>
      intro a
      have hfold : List.foldl max a (y :: ys) = ys.foldl max (max a y) := rfl
      rcases ih (max a y) with h | h
      · rcases le_total a y with hay | hay
        · refine Or.inr ?_
          rw [hfold, h, max_eq_right hay]
          exact List.mem_cons_self y ys
        · refine Or.inl ?_
          rw [hfold, h, max_eq_left hay]
      · refine Or.inr ?_
        rw [hfold]
        exact List.mem_cons_of_mem y h

theorem step_eq_max (a b : ℚ) : (if a < b then b else a) = max a b := by
  rcases lt_or_le a b with h | h
  · rw [if_pos h, max_eq_right h.le]
  · rw [if_neg (not_lt.mpr h), max_eq_left h]

theorem check_eq_of_guards {text : String} {hist : List String} {θ : ℚ}
    (h1 : (jsTrim text).isEmpty = false) (h2 : hist.isEmpty = false)
    (h3 : ¬ (extractKeywords text).length < MIN_WORDS_TO_CHECK) :
    checkContentDuplication text hist θ =
      ContentSimilarityResult.mk (decide (θ ≤ maxSimOf text hist)) (maxSimOf text hist)
        (if decide (θ ≤ maxSimOf text hist) then
          some "Too similar to previous content" else none) := by
  unfold checkContentDuplication
  rw [h1, h2]
  dsimp only
  rw [if_neg (by simp), if_neg (by simp), if_neg h3]
  have hfold : hist.foldl
      (fun acc h =>
        let sim := calculateSimilarity (extractKeywords text) (extractKeywords h)
        if acc < sim then sim else acc) 0 = maxSimOf text hist := by
    unfold maxSimOf
    rw [List.foldl_map]
    congr 1
    funext acc h
    exact step_eq_max _ _
  rw [hfold]

/-- C9 counterexample: a candidate with fewer than 10 keywords ("alpha beta")
checked against a one-element history holding its own summary at threshold
0.7 is not flagged: the check short-circuits to isSimilar false with
similarity 0, although the maximum Jaccard index against that history is 1;
so the reported similarity is not the maximum Jaccard index for every text,
and the self-summary instance does not return isSimilar true for every text. -/
theorem short_text_self_summary_not_flagged :
    createContentSummary "alpha beta" = "alpha beta"
    ∧ (checkContentDuplication "alpha beta" [createContentSummary "alpha beta"]
        (7 / 10)).isSimilar = false
    ∧ (checkContentDuplication "alpha beta" [createContentSummary "alpha beta"]
        (7 / 10)).similarity = 0
    ∧ calculateSimilarity (extractKeywords "alpha beta")
        (extractKeywords (createContentSummary "alpha beta")) = 1 := by
  refine ⟨by decide, by decide, by decide, ?_⟩
  have hkw : extractKeywords (createContentSummary "alpha beta") =
      extractKeywords "alpha beta" := by decide
  rw [hkw]
  exact calculateSimilarity_self (by decide)

/-- C9 amended: whenever the three short-circuit guards pass (non-blank
candidate, nonempty history, at least 10 candidate keywords), the reported
similarity is the maximum Jaccard index between the candidate keyword set and
the history entries keyword sets, and isSimilar holds exactly when that
maximum reaches the threshold; an empty history always yields isSimilar
false; and a candidate whose summary preserves its keyword set (in
particular any candidate with 10 to 20 keywords and an untruncated summary)
checked against its own summary at threshold 0.7 yields isSimilar true with
similarity 1. -/
theorem duplication_check_reports_max_jaccard :
    (∀ (text : String) (hist : List String) (θ : ℚ),
        (jsTrim text).isEmpty = false → hist.isEmpty = false →
        MIN_WORDS_TO_CHECK ≤ (extractKeywords text).length →
        ((∀ h ∈ hist,
            calculateSimilarity (extractKeywords text) (extractKeywords h) ≤
              (checkContentDuplication text hist θ).similarity)
          ∧ (∃ h ∈ hist, (checkContentDuplication text hist θ).similarity =
              calculateSimilarity (extractKeywords text) (extractKeywords h))
          ∧ ((checkContentDuplication text hist θ).isSimilar = true ↔
              θ ≤ (checkContentDuplication text hist θ).similarity)))
    ∧ (∀ (text : String) (θ : ℚ), (checkContentDuplication text [] θ).isSimilar = false)
    ∧ (∀ text : String, (jsTrim text).isEmpty = false →
        extractKeywords (createContentSummary text) = extractKeywords text →
        MIN_WORDS_TO_CHECK ≤ (extractKeywords text).length →
        checkContentDuplication text [createContentSummary text] (7 / 10) =
          ContentSimilarityResult.mk true 1 (some "Too similar to previous content")) := by
  refine ⟨?_, ?_, ?_⟩
  · intro text hist θ h1 h2 h3
    have hng : ¬ (extractKeywords text).length < MIN_WORDS_TO_CHECK := not_lt.mpr h3
    rw [check_eq_of_guards h1 h2 hng]
    dsimp only
    refine ⟨?_, ?_, ?_⟩
    · intro h hh
      exact le_foldl_max _ 0 _ (List.mem_map_of_mem _ hh)
    · rcases foldl_max_mem
          (hist.map (fun h =>
            calculateSimilarity (extractKeywords text) (extractKeywords h))) 0 with hm | hm
      · cases hist with
        | nil => exact absurd h2 (by simp)
        | cons h0 t =>
            refine ⟨h0, List.mem_cons_self h0 t, ?_⟩
            have hle : calculateSimilarity (extractKeywords text) (extractKeywords h0) ≤
                maxSimOf text (h0 :: t) :=
              le_foldl_max _ 0 _ (List.mem_map_of_mem _ (List.mem_cons_self h0 t))
            have hnn := calculateSimilarity_nonneg (extractKeywords text) (extractKeywords h0)
            have hM : maxSimOf text (h0 :: t) = 0 := hm
            rw [hM]
            rw [hM] at hle
            exact le_antisymm hnn hle
      · rcases List.mem_map.mp hm with ⟨h, hh, heq⟩
        exact ⟨h, hh, heq.symm⟩
    · simp only [decide_eq_true_eq]
  · intro text θ
    by_cases h : (jsTrim text).isEmpty = true
    · simp [checkContentDuplication, h]
    · simp [checkContentDuplication, h]
  · intro text h1 hsum h3
    have hng : ¬ (extractKeywords text).length < MIN_WORDS_TO_CHECK := not_lt.mpr h3
    have h2 : ([createContentSummary text]).isEmpty = false := rfl
    rw [check_eq_of_guards h1 h2 hng]
    have hne : extractKeywords text ≠ [] := by
      intro hcontra
      rw [hcontra] at h3
      simp [MIN_WORDS_TO_CHECK] at h3
    have hM : maxSimOf text [createContentSummary text] = 1 := by
      unfold maxSimOf
      simp only [List.map_cons, List.map_nil, List.foldl_cons, List.foldl_nil]
      rw [hsum, calculateSimilarity_self hne]
      simp
    rw [hM]
    have hdec : (decide ((7 : ℚ) / 10 ≤ 1)) = true := decide_eq_true (by norm_num)
    rw [hdec]
    simp

theorem duplication_check_reports_max_jaccard_witness :
    ((jsTrim sampleLongText).isEmpty = false
      ∧ extractKeywords (createContentSummary sampleLongText) = extractKeywords sampleLongText
      ∧ MIN_WORDS_TO_CHECK ≤ (extractKeywords sampleLongText).length)
    ∧ checkContentDuplication sampleLongText [createContentSummary sampleLongText] (7 / 10) =
        ContentSimilarityResult.mk true 1 (some "Too similar to previous content") :=
  ⟨⟨by decide, by decide, by decide⟩,
    duplication_check_reports_max_jaccard.2.2 sampleLongText
      (by decide) (by decide) (by decide)⟩

/-! #### Per-rule outcomes of the cron executor -/

theorem cronProcessRule_appends_one_entry (env : ExecEnv) (now : Nat) (user : UserState)
    (rule : AutoPostingRule) :
    ((cronProcessRule env now user rule).1).autoPostingHistory.length =
      user.autoPostingHistory.length + 1 := by
  unfold cronProcessRule
  dsimp only
  split
  · simp
  · cases henv : env.genText (cronPromptFor env rule) with
    | error msg => simp
    | ok text =>
        dsimp only
        split
        · simp
        · simp

/-- C4: a cron execution whose tenant balance is below the required cost
(1 text-only, 3 with image generation) appends the single failed history
entry "Not enough AI credits", recomputes nextScheduled, performs no
generation, no image call and no publish, and leaves the balance and the
total-used counter unchanged. -/
theorem insufficient_credits_short_circuit (env : ExecEnv) (now : Nat) (user : UserState)
    (rule : AutoPostingRule) (h : user.aiCredits < requiredCreditsOf rule) :
    cronProcessRule env now user rule =
      ({ user with autoPostingHistory := user.autoPostingHistory ++
          [failedEntry rule "Not enough AI credits" now] },
        rescheduled rule now, ExecTrace.mk 0 0 0 0 none)
    ∧ (cronProcessRule env now user rule).1.aiCredits = user.aiCredits
    ∧ (cronProcessRule env now user rule).1.totalCreditsUsed = user.totalCreditsUsed
    ∧ (cronProcessRule env now user rule).2.1.nextScheduled =
        some (calculateNextScheduledDate rule.schedule now)
    ∧ requiredCreditsOf rule = (if rule.imageGeneration then 3 else 1) := by
  have heq : cronProcessRule env now user rule =
      ({ user with autoPostingHistory := user.autoPostingHistory ++
          [failedEntry rule "Not enough AI credits" now] },
        rescheduled rule now, ExecTrace.mk 0 0 0 0 none) := by
    unfold cronProcessRule
    dsimp only
    rw [if_pos h]
  exact ⟨heq, by rw [heq], by rw [heq], by rw [heq]; rfl, rfl⟩

theorem insufficient_credits_short_circuit_witness :
    (brokeUserW.aiCredits < requiredCreditsOf ruleTextW) ∧
      cronProcessRule envOkW 5 brokeUserW ruleTextW =
        ({ brokeUserW with autoPostingHistory := brokeUserW.autoPostingHistory ++
            [failedEntry ruleTextW "Not enough AI credits" 5] },
          rescheduled ruleTextW 5, ExecTrace.mk 0 0 0 0 none) :=
  ⟨by decide, (insufficient_credits_short_circuit envOkW 5 brokeUserW ruleTextW (by decide)).1⟩

/-- C3: a rule whose processing raises (generation error; channel not found)
gets exactly one failed history entry carrying the exception message and its
nextScheduled recomputed; every processed rule contributes exactly one
history entry so a failing rule never stops the batch: the tenant history
grows by exactly the number of due rules, and each tenant of the tick is
processed independently of the others. -/
theorem rule_failure_recorded_and_batch_continues :
    (∀ (env : ExecEnv) (now : Nat) (user : UserState) (rule : AutoPostingRule) (msg : String),
        requiredCreditsOf rule ≤ user.aiCredits →
        env.genText (cronPromptFor env rule) = .error msg →
        cronProcessRule env now user rule =
          ({ user with autoPostingHistory := user.autoPostingHistory ++
              [failedEntry rule msg now] },
            rescheduled rule now, ExecTrace.mk 1 0 0 0 none))
    ∧ (∀ (env : ExecEnv) (now : Nat) (user : UserState) (rule : AutoPostingRule) (text : String),
        requiredCreditsOf rule ≤ user.aiCredits →
        env.genText (cronPromptFor env rule) = .ok text →
        rule.imageGeneration = false →
        rule.channelId ∉ user.channels →
        cronProcessRule env now user rule =
          ({ user with autoPostingHistory := user.autoPostingHistory ++
              [failedEntry rule ("Channel not found for rule " ++ rule.id) now] },
            rescheduled rule now, ExecTrace.mk 1 0 0 0 (some text)))
    ∧ (∀ (env : ExecEnv) (now : Nat) (user : UserState) (rule : AutoPostingRule),
        ((cronProcessRule env now user rule).1).autoPostingHistory.length =
          user.autoPostingHistory.length + 1)
    ∧ (∀ (env : ExecEnv) (now : Nat) (user : UserState) (rules : List AutoPostingRule),
        ((processDueRules env now user rules).1).autoPostingHistory.length =
          user.autoPostingHistory.length + rules.length)
    ∧ (∀ (env : ExecEnv) (now : Nat) (tenants : List (UserState × List AutoPostingRule))
        (i : Nat), (processTenants env now tenants)[i]? =
          (tenants[i]?).map (fun t => processDueRules env now t.1 t.2)) := by
  refine ⟨?_, ?_, cronProcessRule_appends_one_entry, ?_, ?_⟩
  · intro env now user rule msg hc henv
    unfold cronProcessRule
    dsimp only
    rw [if_neg (not_lt.mpr hc), henv]
  · intro env now user rule text hc henv himg hch
    unfold cronProcessRule
    dsimp only
    rw [if_neg (not_lt.mpr hc), henv, himg]
    simp [hch]
  · intro env now user rules
    induction rules generalizing user with
    | nil => rfl
    | cons r rs ih =>
        show ((processDueRules env now (cronProcessRule env now user r).1 rs).1).autoPostingHistory.length = _
        rw [ih, cronProcessRule_appends_one_entry]
        simp [List.length_cons]
        omega
  · intro env now tenants i
    simp [processTenants]

theorem rule_failure_recorded_and_batch_continues_witness :
    (requiredCreditsOf ruleTextW ≤ richUserW.aiCredits
      ∧ envErrW.genText (cronPromptFor envErrW ruleTextW) = .error "OpenAI error") ∧
      cronProcessRule envErrW 7 richUserW ruleTextW =
        ({ richUserW with autoPostingHistory := richUserW.autoPostingHistory ++
            [failedEntry ruleTextW "OpenAI error" 7] },
          rescheduled ruleTextW 7, ExecTrace.mk 1 0 0 0 none) :=
  ⟨⟨by decide, rfl⟩,
    rule_failure_recorded_and_batch_continues.1 envErrW 7 richUserW ruleTextW "OpenAI error"
      (by decide) rfl⟩

/-! #### Duplication handling across the two executors -/

theorem extractKeywords_ne_nil {text : String}
    (h : MIN_WORDS_TO_CHECK ≤ (extractKeywords text).length) : extractKeywords text ≠ [] := by
  intro hc
  rw [hc] at h
  simp [MIN_WORDS_TO_CHECK] at h

theorem check_self_history_flagged {text : String} (h1 : (jsTrim text).isEmpty = false)
    (h3 : MIN_WORDS_TO_CHECK ≤ (extractKeywords text).length) :
    (checkContentDuplication text [text] (7 / 10)).isSimilar = true := by
  rw [check_eq_of_guards h1 (show ([text] : List String).isEmpty = false from rfl)
    (not_lt.mpr h3)]
  dsimp only
  have hM : maxSimOf text [text] = 1 := by
    unfold maxSimOf
    simp only [List.map_cons, List.map_nil, List.foldl_cons, List.foldl_nil]
    rw [calculateSimilarity_self (extractKeywords_ne_nil h3)]
    simp
  rw [hM]
  exact decide_eq_true (by norm_num)

/-- C2 counterexample: a cron execution of a rule with avoidDuplication
enabled, whose generated text is flagged similar to the content history by
the guard, performs zero duplication checks and a single generation call
instead of the one regeneration the claim requires: the cron executor never
invokes the duplication guard. -/
theorem cron_execution_never_checks_duplication :
    dupRuleW.avoidDuplication = true
    ∧ (checkContentDuplication sampleLongText dupRuleW.contentHistory (7 / 10)).isSimilar = true
    ∧ (cronProcessRule dupEnvW 0 richUserW dupRuleW).2.2.dupChecks = 0
    ∧ (cronProcessRule dupEnvW 0 richUserW dupRuleW).2.2.genTextCalls = 1 := by
  refine ⟨rfl, check_self_history_flagged (by decide) (by decide), by decide, by decide⟩

theorem manualFinish_trace_fixed (env : ExecEnv) (now : Nat) (user : UserState)
    (rule : AutoPostingRule) (text : String) (tr : ExecTrace) :
    ((manualFinish env now user rule text tr).2.2.2.genTextCalls = tr.genTextCalls
      ∧ (manualFinish env now user rule text tr).2.2.2.dupChecks = tr.dupChecks
      ∧ (manualFinish env now user rule text tr).2.2.2.chosenText = tr.chosenText) := by
  unfold manualFinish
  dsimp only
  split
  · exact ⟨rfl, rfl, rfl⟩
  · exact ⟨rfl, rfl, rfl⟩

/-- C2 amended: only the manual execute controller consults the duplication
guard. For a manual execution with avoidDuplication enabled whose first
generation is flagged similar to contentHistory, exactly one duplication
check and exactly two generation calls happen, and the regenerated text is
the one the run proceeds with, with no condition on its own similarity; when
the first generation is not flagged (or the option is off) a single
generation call is made and its text is kept; in every manual run at most
two generation calls occur. -/
theorem manual_single_regeneration_kept :
    (∀ (env : ExecEnv) (now : Nat) (user : UserState) (rule : AutoPostingRule)
        (text0 text1 : String),
        rule.statusActive = true →
        ¬ user.aiCredits < requiredCreditsOf rule →
        env.genText (manualPromptFor env rule) = .ok text0 →
        rule.avoidDuplication = true →
        (checkContentDuplication text0 rule.contentHistory (7 / 10)).isSimilar = true →
        env.genText (generateAntiDuplicationPrompt (manualPromptFor env rule) text0) =
          .ok text1 →
        ((executeAutoPostingRule env now user rule).2.2.2.genTextCalls = 2
          ∧ (executeAutoPostingRule env now user rule).2.2.2.dupChecks = 1
          ∧ (executeAutoPostingRule env now user rule).2.2.2.chosenText = some text1))
    ∧ (∀ (env : ExecEnv) (now : Nat) (user : UserState) (rule : AutoPostingRule)
        (text0 : String),
        rule.statusActive = true →
        ¬ user.aiCredits < requiredCreditsOf rule →
        env.genText (manualPromptFor env rule) = .ok text0 →
        (rule.avoidDuplication &&
          (checkContentDuplication text0 rule.contentHistory (7 / 10)).isSimilar) = false →
        ((executeAutoPostingRule env now user rule).2.2.2.genTextCalls = 1
          ∧ (executeAutoPostingRule env now user rule).2.2.2.chosenText = some text0))
    ∧ (∀ (env : ExecEnv) (now : Nat) (user : UserState) (rule : AutoPostingRule),
        (executeAutoPostingRule env now user rule).2.2.2.genTextCalls ≤ 2) := by
  refine ⟨?_, ?_, ?_⟩
  · intro env now user rule text0 text1 hact hc henv0 havoid hsim henv1
    have heq : executeAutoPostingRule env now user rule =
        manualFinish env now user rule text1 (ExecTrace.mk 2 0 0 1 (some text1)) := by
      unfold executeAutoPostingRule
      simp only [hact, hc, henv0, havoid, hsim, henv1, if_true, Bool.and_self, if_false,
        ite_false, ite_true]
    rw [heq]
    exact manualFinish_trace_fixed env now user rule text1 (ExecTrace.mk 2 0 0 1 (some text1))
  · intro env now user rule text0 hact hc henv0 hflag
    have heq : executeAutoPostingRule env now user rule =
        manualFinish env now user rule text0
          (ExecTrace.mk 1 0 0 (if rule.avoidDuplication then 1 else 0) (some text0)) := by
      unfold executeAutoPostingRule
      simp only [hact, hc, henv0, hflag, if_true, if_false, ite_false, ite_true]
      rfl
    rw [heq]
    have := manualFinish_trace_fixed env now user rule text0
      (ExecTrace.mk 1 0 0 (if rule.avoidDuplication then 1 else 0) (some text0))
    exact ⟨this.1, this.2.2⟩
  · intro env now user rule
    unfold executeAutoPostingRule
    split
    · split
      · simp
      · split
        · simp
        · split
          · split
            · simp
            · rw [(manualFinish_trace_fixed env now user rule _ _).1]
          · rw [(manualFinish_trace_fixed env now user rule _ _).1]
            exact Nat.le_succ 1
    · simp

theorem manual_single_regeneration_kept_witness :
    (dupRuleW.statusActive = true
      ∧ ¬ richUserW.aiCredits < requiredCreditsOf dupRuleW
      ∧ dupEnvW.genText (manualPromptFor dupEnvW dupRuleW) = .ok sampleLongText
      ∧ dupRuleW.avoidDuplication = true
      ∧ (checkContentDuplication sampleLongText dupRuleW.contentHistory (7 / 10)).isSimilar =
          true
      ∧ dupEnvW.genText
          (generateAntiDuplicationPrompt (manualPromptFor dupEnvW dupRuleW) sampleLongText) =
          .ok sampleLongText)
    ∧ ((executeAutoPostingRule dupEnvW 0 richUserW dupRuleW).2.2.2.genTextCalls = 2
      ∧ (executeAutoPostingRule dupEnvW 0 richUserW dupRuleW).2.2.2.dupChecks = 1
      ∧ (executeAutoPostingRule dupEnvW 0 richUserW dupRuleW).2.2.2.chosenText =
          some sampleLongText) :=
  ⟨⟨rfl, by decide, rfl, rfl, check_self_history_flagged (by decide) (by decide), rfl⟩,
    manual_single_regeneration_kept.1 dupEnvW 0 richUserW dupRuleW sampleLongText sampleLongText
      rfl (by decide) rfl rfl (check_self_history_flagged (by decide) (by decide)) rfl⟩

end Telepublisher
